import Mathlib

/-!
Verification of the concept-store backend (authenticating, friending,
labelling, sorting, sourcing, templating concepts) against its
natural-language specification.  Object ids are modelled as `Nat`,
strings as `String`; each concept's collections are lists of documents
carrying a store-assigned identifier.
-/

namespace Spec2Proof

/-- Error classes of the framework error hierarchy (src/unnamed/part_002:
BadValuesError, UnauthenticatedError, NotAllowedError, NotFoundError,
NotImplementedError). -/
inductive ErrClass where
  | badValues
  | unauthenticated
  | notAllowed
  | notFound
  | notImplemented
deriving DecidableEq

/-- Domain error values thrown by the concepts, one constructor per error
class defined in the source files. -/
inductive Err where
  | badValuesError
  | userNotFoundError
  | userNotAllowedError
  | friendRequestNotFoundError (f t : Nat)
  | friendRequestAlreadyExistsError (f t : Nat)
  | friendNotFoundError (u1 u2 : Nat)
  | alreadyFriendsError (u1 u2 : Nat)
  | labelNotFoundError (l : String)
  | labelNotAllowedError (l : String)
  | resourceNotFoundError (r : Nat)
  | resourceNotAllowedError (r : Nat)
  | sortNotFoundError (s : Nat)
  | sourceNotFoundError
  | sourceNotAllowedError
  | templateNotFoundError (t : Nat)
  | notImplementedError
deriving DecidableEq

/-- Which framework error class each domain error extends. -/
def Err.errClass : Err → ErrClass
  | .badValuesError => .badValues
  | .userNotFoundError => .notFound
  | .userNotAllowedError => .notAllowed
  | .friendRequestNotFoundError _ _ => .notFound
  | .friendRequestAlreadyExistsError _ _ => .notAllowed
  | .friendNotFoundError _ _ => .notFound
  | .alreadyFriendsError _ _ => .notAllowed
  | .labelNotFoundError _ => .notFound
  | .labelNotAllowedError _ => .notAllowed
  | .resourceNotFoundError _ => .notFound
  | .resourceNotAllowedError _ => .notAllowed
  | .sortNotFoundError _ => .notFound
  | .sourceNotFoundError => .notFound
  | .sourceNotAllowedError => .notAllowed
  | .templateNotFoundError _ => .notFound
  | .notImplementedError => .notImplemented

/-- Modelled from the spec: a stored document of the generic store
(src/server/framework/doc, not present under src/); every document carries
a store-assigned identifier (the spec's base shape, §3) next to its
concept-specific fields. -/
structure Doc (α : Type) where
  _id : Nat
  fields : α
deriving DecidableEq

/-- Modelled from the spec: the generic per-entity-type collection
(`DocCollection` of src/server/framework/doc, not present under src/),
spec §4.1: a named collection of documents plus the counter from which
`createOne` draws fresh identifiers. -/
structure DocCollection (α : Type) where
  docs : List (Doc α)
  nextId : Nat
deriving DecidableEq

namespace DocCollection

variable {α : Type}

/-- Modelled from the spec: `createOne(fields)` inserts a new document with
a fresh identifier and returns the identifier; no uniqueness is enforced
here (spec §4.1). -/
def createOne (c : DocCollection α) (fields : α) : Nat × DocCollection α :=
  (c.nextId, ⟨c.docs ++ [⟨c.nextId, fields⟩], c.nextId + 1⟩)

/-- Modelled from the spec: `readOne(filter)` returns the first document
matching the filter or a not-found sentinel, and never throws (spec §4.1).
Reading is not a persistence mutation: the caller receives the document's
value, and changing that value does not change the collection. -/
def readOne (c : DocCollection α) (p : Doc α → Bool) : Option (Doc α) :=
  c.docs.find? p

/-- Modelled from the spec: `readMany(filter)` returns all matching
documents (spec §4.1). -/
def readMany (c : DocCollection α) (p : Doc α → Bool) : List (Doc α) :=
  c.docs.filter p

/-- Removes the first element satisfying `p`, returning it and the rest. -/
def popFirst (p : Doc α → Bool) : List (Doc α) → Option (Doc α × List (Doc α))
  | [] => none
  | x :: xs =>
      if p x then some (x, xs)
      else (popFirst p xs).map (fun r => (r.1, x :: r.2))

/-- Modelled from the spec: `popOne(filter)` removes and returns the first
match; it is the only store operation that raises (`NotFound`) when nothing
matches (spec §4.1).  Here the error case is the `none` result, turned into
the concrete domain error by each caller. -/
def popOne (c : DocCollection α) (p : Doc α → Bool) :
    Option (Doc α × DocCollection α) :=
  (popFirst p c.docs).map (fun r => (r.1, { c with docs := r.2 }))

/-- Replaces the fields of the first element satisfying `p` by the patched
fields. -/
def updateFirst (p : Doc α → Bool) (patch : α → α) :
    List (Doc α) → List (Doc α)
  | [] => []
  | x :: xs =>
      if p x then ⟨x._id, patch x.fields⟩ :: xs
      else x :: updateFirst p patch xs

/-- Modelled from the spec: `partialUpdateOne(filter, patch)` merges the
patch fields into the first match and is a silent no-op when nothing
matches (spec §4.1, §9). -/
def partialUpdateOne (c : DocCollection α) (p : Doc α → Bool)
    (patch : α → α) : DocCollection α :=
  { c with docs := updateFirst p patch c.docs }

/-- Removes the first element satisfying `p`, if any. -/
def deleteFirst (p : Doc α → Bool) : List (Doc α) → List (Doc α)
  | [] => []
  | x :: xs => if p x then xs else x :: deleteFirst p xs

/-- Modelled from the spec: `deleteOne(filter)` removes the first match
(spec §4.1). -/
def deleteOne (c : DocCollection α) (p : Doc α → Bool) : DocCollection α :=
  { c with docs := deleteFirst p c.docs }

end DocCollection

/-! ## Friending (src/server/concepts/friending.ts) -/

/-- Status of a friend request (friending.ts, `FriendRequestDoc.status`). -/
inductive RequestStatus where
  | pending
  | rejected
  | accepted
deriving DecidableEq

/-- FriendshipDoc of friending.ts: an edge between two users. -/
structure FriendshipDoc where
  user1 : Nat
  user2 : Nat
deriving DecidableEq

/-- FriendRequestDoc of friending.ts (`from` is a Lean keyword, hence
`from_`). -/
structure FriendRequestDoc where
  from_ : Nat
  to_ : Nat
  status : RequestStatus
deriving DecidableEq

/-- The two collections owned by FriendingConcept (friending.ts,
constructor): `friends` and `requests`. -/
structure FriendingState where
  friends : DocCollection FriendshipDoc
  requests : DocCollection FriendRequestDoc
deriving DecidableEq

namespace FriendingConcept

/-- The `$or` filter of `assertNotFriends` and `removeFriend`
(friending.ts): a friendship between `u1` and `u2` in either
orientation. -/
def friendshipPairFilter (u1 u2 : Nat) (d : Doc FriendshipDoc) : Bool :=
  (d.fields.user1 == u1 && d.fields.user2 == u2) ||
    (d.fields.user1 == u2 && d.fields.user2 == u1)

/-- The filter of `canSendRequest` (friending.ts lines 142-146):
`from ∈ {u1,u2}` and `to ∈ {u1,u2}` and status pending. -/
def pendingBetweenFilter (u1 u2 : Nat) (d : Doc FriendRequestDoc) : Bool :=
  (d.fields.from_ == u1 || d.fields.from_ == u2) &&
    (d.fields.to_ == u1 || d.fields.to_ == u2) &&
    decide (d.fields.status = .pending)

/-- The directional filter `{ from, to, status: "pending" }` of
`removePendingRequest` (friending.ts line 121). -/
def pendingDirFilter (f t : Nat) (d : Doc FriendRequestDoc) : Bool :=
  d.fields.from_ == f && d.fields.to_ == t &&
    decide (d.fields.status = .pending)

/-- `assertNotFriends` (friending.ts lines 127-137): throws
AlreadyFriendsError when a friendship edge exists in either orientation or
the two ids are equal. -/
def assertNotFriends (s : FriendingState) (u1 u2 : Nat) : Except Err Unit :=
  if (s.friends.readOne (friendshipPairFilter u1 u2)).isSome || u1 == u2 then
    .error (.alreadyFriendsError u1 u2)
  else
    .ok ()

/-- `canSendRequest` (friending.ts lines 139-150). -/
def canSendRequest (s : FriendingState) (u1 u2 : Nat) : Except Err Unit :=
  match assertNotFriends s u1 u2 with
  | .error e => .error e
  | .ok () =>
      if (s.requests.readOne (pendingBetweenFilter u1 u2)).isSome then
        .error (.friendRequestAlreadyExistsError u1 u2)
      else
        .ok ()

/-- `createRequest` (friending.ts lines 48-51). -/
def createRequest (s : FriendingState) (from_ to_ : Nat) :
    Except Err Nat × FriendingState :=
  match canSendRequest s from_ to_ with
  | .error e => (.error e, s)
  | .ok () =>
      let r := s.requests.createOne ⟨from_, to_, .pending⟩
      (.ok r.1, { s with requests := r.2 })

/-- `removePendingRequest` (friending.ts lines 119-125): pops the pending
request from→to or throws FriendRequestNotFoundError. -/
def removePendingRequest (s : FriendingState) (f t : Nat) :
    Except Err (Doc FriendRequestDoc) × FriendingState :=
  match s.requests.popOne (pendingDirFilter f t) with
  | none => (.error (.friendRequestNotFoundError f t), s)
  | some r => (.ok r.1, { s with requests := r.2 })

/-- `acceptRequest` (friending.ts lines 59-62): remove the pending row,
then insert an accepted row and a friendship edge. -/
def acceptRequest (s : FriendingState) (f t : Nat) :
    Except Err (Nat × Nat) × FriendingState :=
  match removePendingRequest s f t with
  | (.error e, s1) => (.error e, s1)
  | (.ok _, s1) =>
      let r := s1.requests.createOne ⟨f, t, .accepted⟩
      let s2 := { s1 with requests := r.2 }
      let fr := s2.friends.createOne ⟨f, t⟩
      (.ok (r.1, fr.1), { s2 with friends := fr.2 })

/-- `rejectRequest` (friending.ts lines 70-73). -/
def rejectRequest (s : FriendingState) (f t : Nat) :
    Except Err Nat × FriendingState :=
  match removePendingRequest s f t with
  | (.error e, s1) => (.error e, s1)
  | (.ok _, s1) =>
      let r := s1.requests.createOne ⟨f, t, .rejected⟩
      (.ok r.1, { s1 with requests := r.2 })

/-- `removeRequest` (friending.ts lines 80-82). -/
def removeRequest (s : FriendingState) (f t : Nat) :
    Except Err Unit × FriendingState :=
  match removePendingRequest s f t with
  | (.error e, s1) => (.error e, s1)
  | (.ok _, s1) => (.ok (), s1)

/-- `removeFriend` (friending.ts lines 89-100): pops the friendship edge
in either orientation or throws FriendNotFoundError. -/
def removeFriend (s : FriendingState) (user friend : Nat) :
    Except Err Unit × FriendingState :=
  match s.friends.popOne (friendshipPairFilter user friend) with
  | none => (.error (.friendNotFoundError user friend), s)
  | some r => (.ok (), { s with friends := r.2 })

/-- `getFriends` (friending.ts lines 107-113): the other endpoint of every
friendship containing `user`. -/
def getFriends (s : FriendingState) (user : Nat) : List Nat :=
  (s.friends.readMany
      (fun d => d.fields.user1 == user || d.fields.user2 == user)).map
    (fun d => if d.fields.user1 == user then d.fields.user2 else d.fields.user1)

/-- The initial state: both collections empty. -/
def emptyState : FriendingState := ⟨⟨[], 0⟩, ⟨[], 0⟩⟩

/-- States reachable from the empty state by the mutating Friending
actions. -/
inductive Reachable : FriendingState → Prop where
  | init : Reachable emptyState
  | createRequest (s : FriendingState) (f t : Nat) :
      Reachable s → Reachable (createRequest s f t).2
  | acceptRequest (s : FriendingState) (f t : Nat) :
      Reachable s → Reachable (acceptRequest s f t).2
  | rejectRequest (s : FriendingState) (f t : Nat) :
      Reachable s → Reachable (rejectRequest s f t).2
  | removeRequest (s : FriendingState) (f t : Nat) :
      Reachable s → Reachable (removeRequest s f t).2
  | removeFriend (s : FriendingState) (u v : Nat) :
      Reachable s → Reachable (removeFriend s u v).2

/-- A request document that is pending between the unordered pair
`{a, b}`. -/
def pendingPairPred (a b : Nat) (d : Doc FriendRequestDoc) : Bool :=
  ((d.fields.from_ == a && d.fields.to_ == b) ||
    (d.fields.from_ == b && d.fields.to_ == a)) &&
    decide (d.fields.status = .pending)

/-- Number of pending requests between the unordered pair `{a, b}`. -/
def pendingCount (s : FriendingState) (a b : Nat) : Nat :=
  s.requests.docs.countP (pendingPairPred a b)

/-- Number of pending requests from `f` to `t` (directional). -/
def pendingDirCount (s : FriendingState) (f t : Nat) : Nat :=
  s.requests.docs.countP (pendingDirFilter f t)

/-- Number of accepted-request rows from `f` to `t`. -/
def acceptedDirCount (s : FriendingState) (f t : Nat) : Nat :=
  s.requests.docs.countP (fun d =>
    d.fields.from_ == f && d.fields.to_ == t &&
      decide (d.fields.status = .accepted))

/-- Number of friendship edges for the unordered pair `{a, b}`. -/
def friendEdgeCount (s : FriendingState) (a b : Nat) : Nat :=
  s.friends.docs.countP (friendshipPairFilter a b)

/-- Whether a friendship edge exists between `a` and `b`. -/
def isFriends (s : FriendingState) (a b : Nat) : Bool :=
  (s.friends.readOne (friendshipPairFilter a b)).isSome

/-- No pending request has equal endpoints. -/
def NoSelfPending (s : FriendingState) : Prop :=
  ∀ d ∈ s.requests.docs, d.fields.status = .pending →
    d.fields.from_ ≠ d.fields.to_

end FriendingConcept

/-! ## Authenticating (src/server/concepts/authenticating.ts, first
document: AuthenticatingConcept) -/

/-- UserDoc of authenticating.ts. -/
structure UserDoc where
  username : String
  password : String
deriving DecidableEq

/-- The string-valued fields a stored User document actually has.  A
MongoDB-style equality filter on a field the document does not have never
matches, which this function makes explicit. -/
def userField (u : UserDoc) (k : String) : Option String :=
  if k = "username" then some u.username
  else if k = "password" then some u.password
  else none

/-- Modelled from the spec: a filter over the users collection (spec §4.1,
"a conjunction of exact-match ... predicates over fields, as well as
id-based lookup"): an optional `_id` constraint plus exact-match
constraints on named fields. -/
structure UserFilter where
  _id : Option Nat
  fields : List (String × String)

/-- Whether a stored User document matches a filter: each field constraint
must name a field the document has, with the given value. -/
def matchesUser (f : UserFilter) (d : Doc UserDoc) : Bool :=
  (match f._id with
    | some i => d._id == i
    | none => true) &&
    f.fields.all (fun kv => decide (userField d.fields kv.1 = some kv.2))

/-- The single collection owned by AuthenticatingConcept. -/
structure AuthState where
  users : DocCollection UserDoc
deriving DecidableEq

namespace AuthenticatingConcept

/-- `assertGoodCredentials` (authenticating.ts lines 171-176) followed by
`assertUsernameUnique` (lines 183-190): BadValuesError if either string is
empty, UserNotAllowedError if the username is taken. -/
def assertGoodCredentials (s : AuthState) (username password : String) :
    Except Err Unit :=
  if username = "" ∨ password = "" then
    .error .badValuesError
  else if (s.users.readOne (matchesUser ⟨none, [("username", username)]⟩)).isSome then
    .error .userNotAllowedError
  else
    .ok ()

/-- `register` (authenticating.ts lines 34-37). -/
def register (s : AuthState) (username password : String) :
    Except Err Nat × AuthState :=
  match assertGoodCredentials s username password with
  | .error e => (.error e, s)
  | .ok () =>
      let r := s.users.createOne ⟨username, password⟩
      (.ok r.1, ⟨r.2⟩)

/-- `authenticate` (authenticating.ts lines 109-117). -/
def authenticate (s : AuthState) (username password : String) :
    Except Err Nat × AuthState :=
  match s.users.readOne
      (matchesUser ⟨none, [("username", username), ("password", password)]⟩) with
  | none => (.error .userNotFoundError, s)
  | some d => (.ok d._id, s)

/-- `updatePassword` (authenticating.ts lines 143-153): the match filter is
`{ _id, currentPassword }`, written exactly as in the source — the
constraint names the field `currentPassword`, which `UserDoc` does not
have. -/
def updatePassword (s : AuthState) (_id : Nat)
    (currentPassword newPassword : String) : Except Err Unit × AuthState :=
  match s.users.readOne
      (matchesUser ⟨some _id, [("currentPassword", currentPassword)]⟩) with
  | none => (.error .userNotFoundError, s)
  | some _ =>
      (.ok (), ⟨s.users.partialUpdateOne (matchesUser ⟨some _id, []⟩)
        (fun u => { u with password := newPassword })⟩)

/-- The JS `Map` built by `idsToUsernames`: later entries for the same key
overwrite earlier ones, so a lookup returns the last entry with that
key. -/
def jsMapLookup (entries : List (Nat × UserDoc)) (k : Nat) : Option UserDoc :=
  (entries.reverse.find? (fun e => e.1 == k)).map (fun e => e.2)

/-- `idsToUsernames` (authenticating.ts lines 85-91): batch lookup with the
`$in` filter, then per-position map lookup with the sentinel
"DELETED_USER" for unresolved ids. -/
def idsToUsernames (s : AuthState) (ids : List Nat) : List String :=
  let users := s.users.readMany (fun d => ids.contains d._id)
  let idToUser := users.map (fun u => (u._id, u.fields))
  ids.map (fun i =>
    match jsMapLookup idToUser i with
    | some u => u.username
    | none => "DELETED_USER")

/-- What the spec says position `i` of `idsToUsernames` holds: the username
of the (unique) stored User with that id, or the sentinel. -/
def usernameOrSentinel (s : AuthState) (i : Nat) : String :=
  match s.users.docs.find? (fun d => d._id == i) with
  | some d => d.fields.username
  | none => "DELETED_USER"

end AuthenticatingConcept

/-! ## Labelling (src/server/concepts/authenticating.ts, second document:
the LabellingConcept version at lines 204-340, the one the claims cite) -/

/-- LabelDoc: an owning user, a label name and its set of resource ids. -/
structure LabelDoc where
  user : Nat
  label : String
  resources : List Nat
deriving DecidableEq

/-- The single collection owned by LabellingConcept. -/
structure LabellingState where
  labels : DocCollection LabelDoc
deriving DecidableEq

namespace LabellingConcept

/-- The `{ label, user }` filter used throughout LabellingConcept. -/
def labelUserFilter (label : String) (user : Nat) (d : Doc LabelDoc) : Bool :=
  decide (d.fields.label = label) && d.fields.user == user

/-- `assertLabelExists` (authenticating.ts lines 299-304). -/
def assertLabelExists (s : LabellingState) (label : String) (user : Nat) :
    Except Err Unit :=
  if (s.labels.readOne (labelUserFilter label user)).isSome then .ok ()
  else .error (.labelNotFoundError label)

/-- `assertResourceDoesNotExist` (authenticating.ts lines 321-327). -/
def assertResourceDoesNotExist (s : LabellingState) (label : String)
    (resource : Nat) (user : Nat) : Except Err Unit :=
  match assertLabelExists s label user with
  | .error e => .error e
  | .ok () =>
      match s.labels.readOne (labelUserFilter label user) with
      | some d =>
          if d.fields.resources.contains resource then
            .error (.resourceNotAllowedError resource)
          else .ok ()
      | none => .ok ()

/-- `assertResourceExists` (authenticating.ts lines 313-319). -/
def assertResourceExists (s : LabellingState) (label : String)
    (resource : Nat) (user : Nat) : Except Err Unit :=
  match assertLabelExists s label user with
  | .error e => .error e
  | .ok () =>
      match s.labels.readOne (labelUserFilter label user) with
      | some d =>
          if d.fields.resources.contains resource then .ok ()
          else .error (.resourceNotFoundError resource)
      | none => .error (.resourceNotFoundError resource)

/-- `register` (authenticating.ts lines 231-238). -/
def register (s : LabellingState) (label : String) (user : Nat) :
    Except Err Nat × LabellingState :=
  if (s.labels.readOne (labelUserFilter label user)).isSome then
    (.error (.labelNotAllowedError label), s)
  else
    let r := s.labels.createOne ⟨user, label, []⟩
    (.ok r.1, ⟨r.2⟩)

/-- `add` (authenticating.ts lines 260-270): after the two assertions the
source reads the label document and calls `.add` on the `resources` set of
the returned value; under the store contract (spec §4.1) a read is not a
persistence mutation and no update operation is issued, so the collection
is unchanged on success. -/
def add (s : LabellingState) (resource : Nat) (label : String) (user : Nat) :
    Except Err Unit × LabellingState :=
  match assertLabelExists s label user with
  | .error e => (.error e, s)
  | .ok () =>
      match assertResourceDoesNotExist s label resource user with
      | .error e => (.error e, s)
      | .ok () => (.ok (), s)

/-- `remove` (authenticating.ts lines 272-282): same shape as `add`, with
`.delete` on the returned value's set and no store write-back. -/
def remove (s : LabellingState) (resource : Nat) (label : String)
    (user : Nat) : Except Err Unit × LabellingState :=
  match assertLabelExists s label user with
  | .error e => (.error e, s)
  | .ok () =>
      match assertResourceExists s label resource user with
      | .error e => (.error e, s)
      | .ok () => (.ok (), s)

/-- `get` (authenticating.ts lines 284-297): scan all label documents and
collect (as a set, first insertion wins) the names of those whose resource
set contains the resource. -/
def get (s : LabellingState) (resource : Nat) : List String :=
  (s.labels.readMany (fun _ => true)).foldl
    (fun result d =>
      if d.fields.resources.contains resource then
        (if result.contains d.fields.label then result
         else result ++ [d.fields.label])
      else result) []

end LabellingConcept

/-! ## Sorting (src/server/concepts/sorting.ts) -/

/-- SortDoc of sorting.ts: the weights map is a JS `Map<Label, number>`,
modelled as an association list with unique keys maintained by the `Map`
operations below; nothing computes with the numeric weights, so they are
carried as integers. -/
structure SortDoc where
  user : Nat
  weights : List (String × Int)
deriving DecidableEq

/-- The single collection owned by SortingConcept. -/
structure SortingState where
  sorts : DocCollection SortDoc
deriving DecidableEq

/-- Lookup by document id, `readOne(someId)` in the source. -/
def idFilter {α : Type} (i : Nat) (d : Doc α) : Bool :=
  d._id == i

/-- JS `Map.has`. -/
def mapHas (m : List (String × Int)) (k : String) : Bool :=
  m.any (fun e => decide (e.1 = k))

/-- JS `Map.get`: the value at `k`, or `undefined`. -/
def mapGet (m : List (String × Int)) (k : String) : Option Int :=
  (m.find? (fun e => decide (e.1 = k))).map (fun e => e.2)

/-- JS `Map.set`: overwrite the entry for `k` in place, or append one. -/
def mapSet : List (String × Int) → String → Int → List (String × Int)
  | [], k, v => [(k, v)]
  | e :: rest, k, v =>
      if e.1 = k then (k, v) :: rest else e :: mapSet rest k v

/-- JS `Map.delete`: drop the entry for `k`. -/
def mapDelete : List (String × Int) → String → List (String × Int)
  | [], _ => []
  | e :: rest, k => if e.1 = k then rest else e :: mapDelete rest k

namespace SortingConcept

/-- The private static `Sort` (sorting.ts lines 97-99): unconditionally
throws NotImplementedError. -/
def StaticSort (_sort : Doc SortDoc) (_feed : List Nat) :
    Except Err (List Nat) :=
  .error .notImplementedError

/-- `sort` (sorting.ts lines 29-35). -/
def sort (s : SortingState) (sortId : Nat) (feed : List Nat) :
    Except Err (List Nat) × SortingState :=
  match s.sorts.readOne (idFilter sortId) with
  | none => (.error (.sortNotFoundError sortId), s)
  | some d => (StaticSort d feed, s)

/-- `add` (sorting.ts lines 37-50). -/
def add (s : SortingState) (sortId : Nat) (label : String) (weight : Int)
    (user : Nat) : Except Err Unit × SortingState :=
  match s.sorts.readOne (idFilter sortId) with
  | none => (.error (.sortNotFoundError sortId), s)
  | some d =>
      if mapHas d.fields.weights label then
        (.error (.labelNotAllowedError label), s)
      else
        (.ok (), ⟨s.sorts.partialUpdateOne (idFilter sortId)
          (fun f => { f with
            user := user,
            weights := mapSet d.fields.weights label weight })⟩)

/-- `remove` (sorting.ts lines 52-66). -/
def remove (s : SortingState) (sortId : Nat) (label : String) :
    Except Err Unit × SortingState :=
  match s.sorts.readOne (idFilter sortId) with
  | none => (.error (.sortNotFoundError sortId), s)
  | some d =>
      if mapHas d.fields.weights label then
        (.ok (), ⟨s.sorts.partialUpdateOne (idFilter sortId)
          (fun f => { f with weights := mapDelete d.fields.weights label })⟩)
      else
        (.error (.labelNotFoundError label), s)

/-- `set` (sorting.ts lines 68-80): when the label is absent it throws
LabelNotAllowedError. -/
def set (s : SortingState) (sortId : Nat) (label : String) (weight : Int)
    (_user : Nat) : Except Err Unit × SortingState :=
  match s.sorts.readOne (idFilter sortId) with
  | none => (.error (.sortNotFoundError sortId), s)
  | some d =>
      if mapHas d.fields.weights label then
        (.ok (), ⟨s.sorts.partialUpdateOne (idFilter sortId)
          (fun f => { f with
            weights := mapSet d.fields.weights label weight })⟩)
      else
        (.error (.labelNotAllowedError label), s)

/-- `get` (sorting.ts lines 82-95): an absent label gives `undefined` and
throws LabelNotAllowedError. -/
def get (s : SortingState) (sortId : Nat) (label : String) :
    Except Err Int × SortingState :=
  match s.sorts.readOne (idFilter sortId) with
  | none => (.error (.sortNotFoundError sortId), s)
  | some d =>
      match mapGet d.fields.weights label with
      | none => (.error (.labelNotAllowedError label), s)
      | some w => (.ok w, s)

end SortingConcept

/-! ## Sourcing (src/server/concepts/sourcing.ts) -/

/-- Modelled from the spec: the SourceTarget enum of concepts/types.ts,
which is not under src/; spec §3 names the source kinds URL, File and
Folder. -/
inductive SourceTarget where
  | url
  | file
  | folder
deriving DecidableEq

/-- SourceDoc of sourcing.ts. -/
structure SourceDoc where
  user : Nat
  path_uri : String
  target : SourceTarget
  contentIDs : List Nat
deriving DecidableEq

/-- ContentDoc of sourcing.ts. -/
structure ContentDoc where
  user : Nat
  contentID : Nat
  data : Nat
deriving DecidableEq

/-- The two collections owned by SourcingConcept. -/
structure SourcingState where
  sources : DocCollection SourceDoc
  content : DocCollection ContentDoc
deriving DecidableEq

namespace SourcingConcept

/-- The private static `Get` (sourcing.ts lines 148-150): unconditionally
throws NotImplementedError. -/
def Get (_target : Option SourceTarget) (_uri : Option String) :
    Except Err (List (Doc ContentDoc)) :=
  .error .notImplementedError

/-- `update` (sourcing.ts lines 135-146): assert the source exists (the
assertion throws SourceNotAllowedError when it is absent), re-read it, call
`Get` and iterate over the result; `Get` itself always throws before the
loop body could. -/
def update (s : SourcingState) (sourceID : Nat) :
    Except Err Unit × SourcingState :=
  match s.sources.readOne (idFilter sourceID) with
  | none => (.error .sourceNotAllowedError, s)
  | some _ =>
      let source := s.sources.readOne (idFilter sourceID)
      match Get (source.map (fun d => d.fields.target))
          (source.map (fun d => d.fields.path_uri)) with
      | .error e => (.error e, s)
      | .ok newContent =>
          if newContent.isEmpty then (.ok (), s)
          else (.error .notImplementedError, s)

end SourcingConcept

/-! ## Templating (src/server/concepts/templating.ts) -/

/-- TemplateType of templating.ts. -/
inductive TemplateType where
  | markdown
deriving DecidableEq

/-- ResourceType of templating.ts. -/
inductive ResourceType where
  | text
  | image
deriving DecidableEq

/-- TemplateDoc of templating.ts. -/
structure TemplateDoc where
  user : Nat
  type : TemplateType
  resources : List ResourceType
  template : Nat
deriving DecidableEq

/-- RenderDoc of templating.ts. -/
structure RenderDoc where
  user : Nat
  template : Nat
  data : List (String × Nat)
deriving DecidableEq

/-- The two collections owned by TemplatingConcept. -/
structure TemplatingState where
  templates : DocCollection TemplateDoc
  renders : DocCollection RenderDoc
deriving DecidableEq

namespace TemplatingConcept

/-- The private `Render` (templating.ts lines 87-89): unconditionally
throws NotImplementedError. -/
def Render (_template : Nat) (_data : List (String × Nat)) : Except Err Nat :=
  .error .notImplementedError

/-- `render` (templating.ts lines 68-75): assert the template exists
(TemplateNotFoundError otherwise), then call `Render`. -/
def render (s : TemplatingState) (template : Nat)
    (data : List (String × Nat)) : Except Err Nat × TemplatingState :=
  match s.templates.readOne (idFilter template) with
  | none => (.error (.templateNotFoundError template), s)
  | some _ =>
      match Render template data with
      | .error e => (.error e, s)
      | .ok r => (.ok r, s)

end TemplatingConcept

/-! ## Store lemmas -/

namespace DocCollection

theorem readOne_isSome_iff {α : Type} (c : DocCollection α) (p : Doc α → Bool) :
    (c.readOne p).isSome = true ↔ ∃ d ∈ c.docs, p d = true := by
  simp [readOne, List.find?_isSome]

theorem readOne_eq_none_iff {α : Type} (c : DocCollection α) (p : Doc α → Bool) :
    c.readOne p = none ↔ ∀ d ∈ c.docs, p d = false := by
  simp [readOne, List.find?_eq_none]

theorem popFirst_eq_none_iff {α : Type} (p : Doc α → Bool) (l : List (Doc α)) :
    popFirst p l = none ↔ ∀ x ∈ l, p x = false := by
  induction l with
  | nil => simp [popFirst]
  | cons y ys ih =>
      by_cases hy : p y
      · simp [popFirst, hy]
      · simp [popFirst, hy, ih]

theorem popFirst_eq_some {α : Type} {p : Doc α → Bool} {l : List (Doc α)}
    {x : Doc α} {xs : List (Doc α)} (h : popFirst p l = some (x, xs)) :
    p x = true ∧ ∃ l₁ l₂, l = l₁ ++ x :: l₂ ∧ xs = l₁ ++ l₂ := by
  induction l generalizing xs with
  | nil => simp [popFirst] at h
  | cons y ys ih =>
      by_cases hy : p y
      · simp only [popFirst, hy, if_true, Option.some.injEq, Prod.mk.injEq] at h
        obtain ⟨rfl, rfl⟩ := h
        exact ⟨hy, [], ys, rfl, rfl⟩
      · simp only [popFirst, hy, if_false, Bool.false_eq_true, Option.map_eq_some',
          Prod.mk.injEq] at h
        obtain ⟨⟨a, b⟩, hr, ha, hb⟩ := h
        subst ha
        obtain ⟨hp, l₁, l₂, hl, hxs⟩ := ih hr
        exact ⟨hp, y :: l₁, l₂, by simp [hl], by simp [hxs, ← hb]⟩

end DocCollection

/-! ## Claim theorems: Friending self-request, the unimplemented stubs,
and the Sorting weight map -/

/-- C10: for every user id `u`, `createRequest(u, u)` fails NotAllowed with
AlreadyFriendsError — in every state, including one with no friendship and
no request involving `u` — and leaves the requests and friends collections
unchanged. -/
theorem createRequest_self_always_not_allowed (s : FriendingState) (u : Nat) :
    (FriendingConcept.createRequest s u u).1 = .error (.alreadyFriendsError u u) ∧
    (FriendingConcept.createRequest s u u).2 = s := by
  unfold FriendingConcept.createRequest FriendingConcept.canSendRequest
    FriendingConcept.assertNotFriends
  simp

/-- C8: whenever the named entity exists (a Sort profile for
`Sorting.sort`, a Source for `Sourcing.update`, a Template for
`Templating.render`), the operation fails with NotImplementedError and
leaves every collection unchanged. -/
theorem stub_algorithms_not_implemented
    (ss : SortingState) (sortId : Nat) (feed : List Nat)
    (vs : SourcingState) (sourceId : Nat)
    (ts : TemplatingState) (templateId : Nat) (data : List (String × Nat))
    (h1 : (ss.sorts.readOne (idFilter sortId)).isSome = true)
    (h2 : (vs.sources.readOne (idFilter sourceId)).isSome = true)
    (h3 : (ts.templates.readOne (idFilter templateId)).isSome = true) :
    (SortingConcept.sort ss sortId feed).1 = .error .notImplementedError ∧
    (SortingConcept.sort ss sortId feed).2 = ss ∧
    (SourcingConcept.update vs sourceId).1 = .error .notImplementedError ∧
    (SourcingConcept.update vs sourceId).2 = vs ∧
    (TemplatingConcept.render ts templateId data).1 = .error .notImplementedError ∧
    (TemplatingConcept.render ts templateId data).2 = ts := by
  refine ⟨?_, ?_, ?_, ?_, ?_, ?_⟩ <;>
    [skip; skip; skip; skip; skip; skip]
  all_goals {
    first
    | (cases hx : ss.sorts.readOne (idFilter sortId) with
       | none => rw [hx] at h1; simp at h1
       | some d => simp [SortingConcept.sort, hx, SortingConcept.StaticSort])
    | (cases hx : vs.sources.readOne (idFilter sourceId) with
       | none => rw [hx] at h2; simp at h2
       | some d => simp [SourcingConcept.update, hx, SourcingConcept.Get])
    | (cases hx : ts.templates.readOne (idFilter templateId) with
       | none => rw [hx] at h3; simp at h3
       | some d => simp [TemplatingConcept.render, hx, TemplatingConcept.Render])
  }

/-- C9: for an existing Sort profile, `add` fails NotAllowed
(LabelNotAllowedError) exactly when the label is already in the weight
mapping, while `set`/`get` fail NotAllowed (LabelNotAllowedError) and
`remove` fails NotFound (LabelNotFoundError) exactly when it is absent; in
every other case each operation succeeds. -/
theorem sorting_weight_ops_spec (s : SortingState) (sortId : Nat)
    (label : String) (weight : Int) (user : Nat) (d : Doc SortDoc)
    (hd : s.sorts.readOne (idFilter sortId) = some d) :
    (mapHas d.fields.weights label = true →
      (SortingConcept.add s sortId label weight user).1
        = .error (.labelNotAllowedError label)) ∧
    (mapHas d.fields.weights label = false →
      (SortingConcept.add s sortId label weight user).1 = .ok ()) ∧
    (mapHas d.fields.weights label = false →
      (SortingConcept.set s sortId label weight user).1
        = .error (.labelNotAllowedError label)) ∧
    (mapHas d.fields.weights label = true →
      (SortingConcept.set s sortId label weight user).1 = .ok ()) ∧
    (mapHas d.fields.weights label = false →
      (SortingConcept.get s sortId label).1
        = .error (.labelNotAllowedError label)) ∧
    (mapHas d.fields.weights label = true →
      ∃ w, (SortingConcept.get s sortId label).1 = .ok w) ∧
    (mapHas d.fields.weights label = false →
      (SortingConcept.remove s sortId label).1
        = .error (.labelNotFoundError label)) ∧
    (mapHas d.fields.weights label = true →
      (SortingConcept.remove s sortId label).1 = .ok ()) := by
  have hiso : (mapGet d.fields.weights label).isSome
      = mapHas d.fields.weights label := by
    rw [Bool.eq_iff_iff]
    simp [mapGet, mapHas, List.find?_isSome, List.any_eq_true]
  refine ⟨?_, ?_, ?_, ?_, ?_, ?_, ?_, ?_⟩ <;> intro hhas
  · simp [SortingConcept.add, hd, hhas]
  · simp [SortingConcept.add, hd, hhas]
  · simp [SortingConcept.set, hd, hhas]
  · simp [SortingConcept.set, hd, hhas]
  · have hmg : mapGet d.fields.weights label = none := by
      rw [← Option.not_isSome_iff_eq_none, hiso, hhas]
      simp
    simp [SortingConcept.get, hd, hmg]
  · obtain ⟨w, hw⟩ := Option.isSome_iff_exists.mp (by rw [hiso, hhas])
    exact ⟨w, by simp [SortingConcept.get, hd, hw]⟩
  · simp [SortingConcept.remove, hd, hhas]
  · simp [SortingConcept.remove, hd, hhas]

/-! ## Claim theorems: Authenticating -/

theorem matchesUser_username (u : String) (d : Doc UserDoc) :
    matchesUser ⟨none, [("username", u)]⟩ d
      = decide (d.fields.username = u) := by
  simp [matchesUser, userField]

theorem usernameTaken_iff (s : AuthState) (username : String) :
    (s.users.readOne (matchesUser ⟨none, [("username", username)]⟩)).isSome
        = true ↔
      ∃ d ∈ s.users.docs, d.fields.username = username := by
  rw [DocCollection.readOne_isSome_iff]
  constructor
  · rintro ⟨d, hd, hm⟩
    rw [matchesUser_username] at hm
    exact ⟨d, hd, of_decide_eq_true hm⟩
  · rintro ⟨d, hd, hm⟩
    exact ⟨d, hd, by rw [matchesUser_username]; exact decide_eq_true hm⟩

/-- C6: `register(username, password)` fails BadValues when either string
is empty; when both are non-empty it fails NotAllowed when some stored
User already has that username (whatever its password is), and otherwise
creates a new User document and returns its fresh id. -/
theorem register_spec (s : AuthState) (username password : String) :
    ((username = "" ∨ password = "") →
      (AuthenticatingConcept.register s username password).1
          = .error .badValuesError ∧
      (AuthenticatingConcept.register s username password).2 = s) ∧
    (username ≠ "" → password ≠ "" →
      (∃ d ∈ s.users.docs, d.fields.username = username) →
      (AuthenticatingConcept.register s username password).1
          = .error .userNotAllowedError ∧
      (AuthenticatingConcept.register s username password).2 = s) ∧
    (username ≠ "" → password ≠ "" →
      (¬ ∃ d ∈ s.users.docs, d.fields.username = username) →
      (AuthenticatingConcept.register s username password).1
          = .ok s.users.nextId ∧
      (AuthenticatingConcept.register s username password).2.users.docs
          = s.users.docs ++ [⟨s.users.nextId, ⟨username, password⟩⟩]) := by
  refine ⟨?_, ?_, ?_⟩
  · intro h
    simp [AuthenticatingConcept.register,
      AuthenticatingConcept.assertGoodCredentials, h]
  · intro h1 h2 hex
    have ht := (usernameTaken_iff s username).mpr hex
    simp [AuthenticatingConcept.register,
      AuthenticatingConcept.assertGoodCredentials, h1, h2, ht]
  · intro h1 h2 hex
    have ht : (s.users.readOne
        (matchesUser ⟨none, [("username", username)]⟩)).isSome = false := by
      rw [Bool.eq_false_iff]
      intro hc
      exact hex ((usernameTaken_iff s username).mp hc)
    simp [AuthenticatingConcept.register,
      AuthenticatingConcept.assertGoodCredentials, h1, h2, ht,
      DocCollection.createOne]

/-- A one-user state: the stored user has id 0, username "alice" and
password "pw". -/
def exampleAuthState : AuthState := ⟨⟨[⟨0, ⟨"alice", "pw"⟩⟩], 1⟩⟩

/-- C3: `updatePassword` puts `currentPassword` in the match filter under
the key `currentPassword`, a field no stored User document has, so the
lookup never matches: the call fails NotFound for every input and never
updates anything — including the run where the user's stored password
equals the presented current password, where the claim says it must
succeed. -/
theorem updatePassword_always_not_found :
    (∀ (s : AuthState) (i : Nat) (cur new : String),
      (AuthenticatingConcept.updatePassword s i cur new).1
          = .error .userNotFoundError ∧
      (AuthenticatingConcept.updatePassword s i cur new).2 = s) ∧
    ((∃ d ∈ exampleAuthState.users.docs,
        d._id = 0 ∧ d.fields.password = "pw") ∧
      (AuthenticatingConcept.updatePassword exampleAuthState 0 "pw" "new").1
          = .error .userNotFoundError ∧
      (AuthenticatingConcept.updatePassword exampleAuthState 0 "pw" "new").2
          = exampleAuthState) := by
  have huniv : ∀ (s : AuthState) (i : Nat) (cur new : String),
      (AuthenticatingConcept.updatePassword s i cur new).1
          = .error .userNotFoundError ∧
      (AuthenticatingConcept.updatePassword s i cur new).2 = s := by
    intro s i cur new
    have hnone : s.users.readOne
        (matchesUser ⟨some i, [("currentPassword", cur)]⟩) = none := by
      rw [DocCollection.readOne_eq_none_iff]
      intro d _
      simp [matchesUser, userField]
    constructor <;> simp [AuthenticatingConcept.updatePassword, hnone]
  refine ⟨huniv, ⟨⟨0, ⟨"alice", "pw"⟩⟩, by simp [exampleAuthState], rfl, rfl⟩,
    (huniv exampleAuthState 0 "pw" "new").1,
    (huniv exampleAuthState 0 "pw" "new").2⟩

/-! ## Claim theorems: Labelling -/

/-- The Labelling state with label "work" registered for user 0 and
nothing else. -/
def labWork : LabellingState := (LabellingConcept.register ⟨⟨[], 0⟩⟩ "work" 0).2

/-- C4: running the spec's scenario — register label "work" for user 0,
add resource 5 to it — the `add` call passes its assertions and succeeds,
but it only mutates the document value returned by `readOne` and issues no
store update, so `get(5)` afterwards is the empty set rather than the set
containing "work". -/
theorem labelling_add_not_persisted :
    (LabellingConcept.register ⟨⟨[], 0⟩⟩ "work" 0).1 = .ok 0 ∧
    (LabellingConcept.add labWork 5 "work" 0).1 = .ok () ∧
    LabellingConcept.get (LabellingConcept.add labWork 5 "work" 0).2 5
      = [] := by
  exact ⟨rfl, rfl, rfl⟩

/-- C5: adding to an unregistered label fails NotFound (as the claim
says), but — because a successful `add` never writes the enlarged set back
to the store — a second identical `add` succeeds instead of failing
NotAllowed, and a `remove` after the successful `add` fails NotFound
instead of succeeding. -/
theorem labelling_add_twice_remove_run :
    (LabellingConcept.add ⟨⟨[], 0⟩⟩ 5 "work" 0).1
        = .error (.labelNotFoundError "work") ∧
    (LabellingConcept.add labWork 5 "work" 0).1 = .ok () ∧
    (LabellingConcept.add (LabellingConcept.add labWork 5 "work" 0).2
        5 "work" 0).1 = .ok () ∧
    (LabellingConcept.remove (LabellingConcept.add labWork 5 "work" 0).2
        5 "work" 0).1 = .error (.resourceNotFoundError 5) := by
  exact ⟨rfl, rfl, rfl, rfl⟩

/-! ## idsToUsernames -/

theorem find?_id_reverse {l : List (Doc UserDoc)}
    (h : (l.map (fun d => d._id)).Nodup) (k : Nat) :
    l.reverse.find? (fun d => d._id == k) = l.find? (fun d => d._id == k) := by
  induction l with
  | nil => rfl
  | cons d rest ih =>
      rw [List.map_cons, List.nodup_cons] at h
      obtain ⟨hnot, hrest⟩ := h
      rw [List.reverse_cons, List.find?_append, ih hrest]
      by_cases hk : d._id == k
      · have hzero : rest.find? (fun x => x._id == k) = none := by
          rw [List.find?_eq_none]
          intro x hx hpx
          apply hnot
          have hxk : x._id = k := by simpa using hpx
          have hdk : d._id = k := by simpa using hk
          rw [List.mem_map]
          exact ⟨x, hx, by rw [hxk, hdk]⟩
        rw [hzero]
        simp [List.find?, hk]
      · simp [List.find?, hk]

theorem find?_filter_of_imp {l : List (Doc UserDoc)}
    {p q : Doc UserDoc → Bool} (h : ∀ d, p d = true → q d = true) :
    (l.filter q).find? p = l.find? p := by
  induction l with
  | nil => rfl
  | cons d rest ih =>
      by_cases hq : q d = true
      · rw [List.filter_cons_of_pos hq]
        by_cases hp : p d = true
        · simp [List.find?, hp]
        · simp only [Bool.not_eq_true] at hp
          simp [List.find?, hp, ih]
      · simp only [Bool.not_eq_true] at hq
        have hp : p d = false := by
          cases hpd : p d
          · rfl
          · rw [h d hpd] at hq
            cases hq
        rw [List.filter_cons_of_neg (by simp [hq])]
        simp [List.find?, hp, ih]

/-- C7: `idsToUsernames` is total and positional: in a state whose stored
users have pairwise distinct ids, the result has the same length as the
input and holds at each position the username of the user with that id
when one exists, and the sentinel "DELETED_USER" when none does. -/
theorem idsToUsernames_spec (s : AuthState) (ids : List Nat)
    (h : (s.users.docs.map (fun d => d._id)).Nodup) :
    (AuthenticatingConcept.idsToUsernames s ids).length = ids.length ∧
    AuthenticatingConcept.idsToUsernames s ids
      = ids.map (AuthenticatingConcept.usernameOrSentinel s) := by
  have key : ∀ i ∈ ids,
      (match AuthenticatingConcept.jsMapLookup
          ((s.users.readMany (fun d => ids.contains d._id)).map
            (fun u => (u._id, u.fields))) i with
        | some u => u.username
        | none => "DELETED_USER")
        = AuthenticatingConcept.usernameOrSentinel s i := by
    intro i hi
    have hchain : AuthenticatingConcept.jsMapLookup
        ((s.users.readMany (fun d => ids.contains d._id)).map
          (fun u => (u._id, u.fields))) i
        = (s.users.docs.find? (fun d => d._id == i)).map
            (fun d => d.fields) := by
      unfold AuthenticatingConcept.jsMapLookup
      rw [← List.map_reverse, List.find?_map]
      have hcomp : ((fun e : Nat × UserDoc => e.1 == i) ∘
          (fun u : Doc UserDoc => (u._id, u.fields)))
          = fun d : Doc UserDoc => d._id == i := rfl
      rw [hcomp]
      have hnodup : (((s.users.docs.filter
          (fun d => ids.contains d._id)).map (fun d => d._id))).Nodup := by
        refine List.Nodup.sublist ?_ h
        exact List.Sublist.map _ (List.filter_sublist _)
      rw [show s.users.readMany (fun d => ids.contains d._id)
            = s.users.docs.filter (fun d => ids.contains d._id) from rfl]
      rw [find?_id_reverse hnodup]
      rw [find?_filter_of_imp (fun d hd => ?_)]
      · rw [Option.map_map]
        rfl
      · have : d._id = i := by simpa using hd
        rw [this]
        simpa using hi
    rw [hchain]
    unfold AuthenticatingConcept.usernameOrSentinel
    cases s.users.docs.find? (fun d => d._id == i) <;> rfl
  constructor
  · simp [AuthenticatingConcept.idsToUsernames]
  · unfold AuthenticatingConcept.idsToUsernames
    exact List.map_congr_left key

/-! ## Friending lemmas: createRequest and the pending-uniqueness
invariant -/

namespace FriendingConcept

theorem pendingDirFilter_eq {f t : Nat} {d : Doc FriendRequestDoc}
    (h : pendingDirFilter f t d = true) :
    d.fields.from_ = f ∧ d.fields.to_ = t ∧ d.fields.status = .pending := by
  unfold pendingDirFilter at h
  simp only [Bool.and_eq_true, beq_iff_eq, decide_eq_true_eq] at h
  exact ⟨h.1.1, h.1.2, h.2⟩

theorem createRequest_of_error {s : FriendingState} {f t : Nat} {e : Err}
    (h : canSendRequest s f t = .error e) :
    createRequest s f t = (.error e, s) := by
  unfold createRequest
  rw [h]

theorem createRequest_of_ok {s : FriendingState} {f t : Nat}
    (h : canSendRequest s f t = .ok ()) :
    createRequest s f t = (.ok s.requests.nextId,
      { s with requests :=
          ⟨s.requests.docs ++ [⟨s.requests.nextId, ⟨f, t, .pending⟩⟩],
            s.requests.nextId + 1⟩ }) := by
  unfold createRequest
  rw [h]
  rfl

theorem canSendRequest_ok {s : FriendingState} {f t : Nat}
    (h : canSendRequest s f t = .ok ()) :
    isFriends s f t = false ∧ f ≠ t ∧
      ∀ d ∈ s.requests.docs, pendingBetweenFilter f t d = false := by
  unfold canSendRequest assertNotFriends at h
  by_cases h1 : (s.friends.readOne (friendshipPairFilter f t)).isSome = true
  · simp [h1] at h
  · by_cases h2 : f = t
    · simp [h1, h2] at h
    · by_cases h3 : (s.requests.readOne (pendingBetweenFilter f t)).isSome = true
      · simp [h1, h2, h3] at h
      · refine ⟨by simpa [isFriends] using h1, h2, ?_⟩
        have h4 : s.requests.readOne (pendingBetweenFilter f t) = none := by
          cases ho : s.requests.readOne (pendingBetweenFilter f t) with
          | none => rfl
          | some d => exact absurd (by rw [ho]; rfl) h3
        exact (DocCollection.readOne_eq_none_iff _ _).mp h4

theorem canSendRequest_error_of {s : FriendingState} {f t : Nat}
    (hcond : isFriends s f t = true ∨ 0 < pendingCount s f t) :
    ∃ e, canSendRequest s f t = .error e ∧ e.errClass = .notAllowed := by
  by_cases hf2 : ((s.friends.readOne (friendshipPairFilter f t)).isSome
      || f == t) = true
  · refine ⟨.alreadyFriendsError f t, ?_, rfl⟩
    unfold canSendRequest assertNotFriends
    simp [hf2]
  · have hfr : isFriends s f t = false := by
      simp only [Bool.or_eq_true, not_or, Bool.not_eq_true] at hf2
      simpa [isFriends] using hf2.1
    rcases hcond with hfe | hp
    · rw [hfr] at hfe
      cases hfe
    · have hsome : (s.requests.readOne (pendingBetweenFilter f t)).isSome
          = true := by
        rw [DocCollection.readOne_isSome_iff]
        obtain ⟨d, hd, hpred⟩ := List.countP_pos_iff.mp hp
        refine ⟨d, hd, ?_⟩
        unfold pendingPairPred at hpred
        unfold pendingBetweenFilter
        simp only [Bool.and_eq_true, Bool.or_eq_true, beq_iff_eq,
          decide_eq_true_eq] at hpred ⊢
        obtain ⟨hpair, hpend⟩ := hpred
        rcases hpair with ⟨hf1, ht1⟩ | ⟨hf1, ht1⟩ <;>
          exact ⟨⟨by tauto, by tauto⟩, hpend⟩
      refine ⟨.friendRequestAlreadyExistsError f t, ?_, rfl⟩
      unfold canSendRequest assertNotFriends
      simp [hf2, hsome]

/-- The three request-consuming actions either leave the state unchanged
(pop failed) or split the request list around the popped pending row. -/
theorem acceptRequest_state (s : FriendingState) (f t : Nat) :
    (DocCollection.popFirst (pendingDirFilter f t) s.requests.docs = none ∧
      acceptRequest s f t = (.error (.friendRequestNotFoundError f t), s)) ∨
    ∃ x l₁ l₂, pendingDirFilter f t x = true ∧
      s.requests.docs = l₁ ++ x :: l₂ ∧
      acceptRequest s f t
        = (.ok (s.requests.nextId, s.friends.nextId),
            { friends := ⟨s.friends.docs ++ [⟨s.friends.nextId, ⟨f, t⟩⟩],
                s.friends.nextId + 1⟩,
              requests := ⟨(l₁ ++ l₂)
                  ++ [⟨s.requests.nextId, ⟨f, t, .accepted⟩⟩],
                s.requests.nextId + 1⟩ }) := by
  unfold acceptRequest removePendingRequest DocCollection.popOne
  cases hp : DocCollection.popFirst (pendingDirFilter f t) s.requests.docs with
  | none => exact .inl ⟨rfl, rfl⟩
  | some r =>
      obtain ⟨x, xs⟩ := r
      obtain ⟨hpx, l₁, l₂, hl, hxs⟩ := DocCollection.popFirst_eq_some hp
      refine .inr ⟨x, l₁, l₂, hpx, hl, ?_⟩
      subst hxs
      rfl

theorem rejectRequest_state (s : FriendingState) (f t : Nat) :
    (rejectRequest s f t).2 = s ∨
    ∃ x l₁ l₂, pendingDirFilter f t x = true ∧
      s.requests.docs = l₁ ++ x :: l₂ ∧
      (rejectRequest s f t).2.requests.docs
        = (l₁ ++ l₂) ++ [⟨s.requests.nextId, ⟨f, t, .rejected⟩⟩] := by
  unfold rejectRequest removePendingRequest DocCollection.popOne
  cases hp : DocCollection.popFirst (pendingDirFilter f t) s.requests.docs with
  | none => exact .inl rfl
  | some r =>
      obtain ⟨x, xs⟩ := r
      obtain ⟨hpx, l₁, l₂, hl, hxs⟩ := DocCollection.popFirst_eq_some hp
      refine .inr ⟨x, l₁, l₂, hpx, hl, ?_⟩
      subst hxs
      rfl

theorem removeRequest_state (s : FriendingState) (f t : Nat) :
    (removeRequest s f t).2 = s ∨
    ∃ x l₁ l₂, pendingDirFilter f t x = true ∧
      s.requests.docs = l₁ ++ x :: l₂ ∧
      (removeRequest s f t).2.requests.docs = l₁ ++ l₂ := by
  unfold removeRequest removePendingRequest DocCollection.popOne
  cases hp : DocCollection.popFirst (pendingDirFilter f t) s.requests.docs with
  | none => exact .inl rfl
  | some r =>
      obtain ⟨x, xs⟩ := r
      obtain ⟨hpx, l₁, l₂, hl, hxs⟩ := DocCollection.popFirst_eq_some hp
      refine .inr ⟨x, l₁, l₂, hpx, hl, ?_⟩
      subst hxs
      rfl

theorem removeFriend_requests (s : FriendingState) (u v : Nat) :
    (removeFriend s u v).2.requests = s.requests := by
  unfold removeFriend DocCollection.popOne
  cases hp : DocCollection.popFirst (friendshipPairFilter u v) s.friends.docs with
  | none => rfl
  | some r => rfl

/-- Removing a pending row and appending non-pending rows preserves both
pending-request invariants. -/
theorem shrink_preserves {x : Doc FriendRequestDoc}
    {l₁ l₂ tail : List (Doc FriendRequestDoc)}
    (htail : ∀ d ∈ tail, ¬ d.fields.status = .pending)
    (hNSP : ∀ d ∈ l₁ ++ x :: l₂, d.fields.status = .pending →
      d.fields.from_ ≠ d.fields.to_)
    (hcnt : ∀ a b, List.countP (pendingPairPred a b) (l₁ ++ x :: l₂) ≤ 1) :
    (∀ d ∈ (l₁ ++ l₂) ++ tail, d.fields.status = .pending →
      d.fields.from_ ≠ d.fields.to_) ∧
    (∀ a b, List.countP (pendingPairPred a b) ((l₁ ++ l₂) ++ tail) ≤ 1) := by
  constructor
  · intro d hd hp
    rcases List.mem_append.mp hd with hd1 | hd2
    · rcases List.mem_append.mp hd1 with h1 | h2
      · exact hNSP d (List.mem_append.mpr (.inl h1)) hp
      · exact hNSP d (List.mem_append.mpr (.inr (List.mem_cons_of_mem _ h2))) hp
    · exact absurd hp (htail d hd2)
  · intro a b
    have htail0 : List.countP (pendingPairPred a b) tail = 0 := by
      rw [List.countP_eq_zero]
      intro d hd hpd
      unfold pendingPairPred at hpd
      simp only [Bool.and_eq_true, decide_eq_true_eq] at hpd
      exact htail d hd hpd.2
    have := hcnt a b
    rw [List.countP_append, List.countP_cons] at this
    rw [List.countP_append, htail0, Nat.add_zero, List.countP_append]
    omega

/-- The inductive invariant of the Friending state machine: no pending
request is a self-request, and each unordered pair has at most one pending
request. -/
theorem reachable_inv {s : FriendingState} (hs : Reachable s) :
    NoSelfPending s ∧ ∀ a b, pendingCount s a b ≤ 1 := by
  induction hs with
  | init =>
      refine ⟨?_, ?_⟩
      · intro d hd
        cases hd
      · intro a b
        simp [pendingCount, emptyState]
  | createRequest s f t _ ih =>
      cases hc : canSendRequest s f t with
      | error e =>
          rw [createRequest_of_error hc]
          exact ih
      | ok u =>
          cases u
          obtain ⟨hnf, hft, hnp⟩ := canSendRequest_ok hc
          rw [createRequest_of_ok hc]
          constructor
          · intro d hd hpend
            rcases List.mem_append.mp hd with hold | hnew
            · exact ih.1 d hold hpend
            · simp only [List.mem_singleton] at hnew
              subst hnew
              exact hft
          · intro a b
            unfold pendingCount NoSelfPending at *
            simp only []
            rw [List.countP_append]
            by_cases hpred : pendingPairPred a b
                ⟨s.requests.nextId, ⟨f, t, .pending⟩⟩ = true
            · have hold : List.countP (pendingPairPred a b) s.requests.docs
                  = 0 := by
                rw [List.countP_eq_zero]
                intro d hd hpd
                have hfalse := hnp d hd
                unfold pendingPairPred at hpd hpred
                unfold pendingBetweenFilter at hfalse
                simp only [Bool.and_eq_true, Bool.or_eq_true, beq_iff_eq,
                  decide_eq_true_eq] at hpd hpred
                rw [Bool.eq_false_iff] at hfalse
                apply hfalse
                simp only [Bool.and_eq_true, Bool.or_eq_true, beq_iff_eq,
                  decide_eq_true_eq]
                obtain ⟨hp1, hp2⟩ := hpd
                obtain ⟨hq1, _⟩ := hpred
                rcases hp1 with ⟨e1, e2⟩ | ⟨e1, e2⟩ <;>
                  rcases hq1 with ⟨g1, g2⟩ | ⟨g1, g2⟩ <;>
                  exact ⟨⟨by omega, by omega⟩, hp2⟩
              rw [hold]
              simp [hpred]
            · simp only [Bool.not_eq_true] at hpred
              rw [List.countP_singleton, hpred]
              simpa using ih.2 a b
  | acceptRequest s f t _ ih =>
      rcases acceptRequest_state s f t with ⟨_, heq⟩ | ⟨x, l₁, l₂, hx, hdocs, heq⟩
      · rw [heq]
        exact ih
      · rw [heq]
        have hsh := @shrink_preserves x l₁ l₂
          [⟨s.requests.nextId, ⟨f, t, .accepted⟩⟩]
          (by intro d hd; simp only [List.mem_singleton] at hd; subst hd; simp)
          (by rw [← hdocs]; exact ih.1)
          (by intro a b; rw [← hdocs]; exact ih.2 a b)
        exact ⟨fun d hd => hsh.1 d hd, fun a b => hsh.2 a b⟩
  | rejectRequest s f t _ ih =>
      rcases rejectRequest_state s f t with heq | ⟨x, l₁, l₂, hx, hdocs, heq⟩
      · rw [heq]
        exact ih
      · have hsh := @shrink_preserves x l₁ l₂
          [⟨s.requests.nextId, ⟨f, t, .rejected⟩⟩]
          (by intro d hd; simp only [List.mem_singleton] at hd; subst hd; simp)
          (by rw [← hdocs]; exact ih.1)
          (by intro a b; rw [← hdocs]; exact ih.2 a b)
        constructor
        · intro d hd
          rw [heq] at hd
          exact hsh.1 d hd
        · intro a b
          unfold pendingCount
          rw [heq]
          exact hsh.2 a b
  | removeRequest s f t _ ih =>
      rcases removeRequest_state s f t with heq | ⟨x, l₁, l₂, hx, hdocs, heq⟩
      · rw [heq]
        exact ih
      · have hsh := @shrink_preserves x l₁ l₂ []
          (by intro d hd; cases hd)
          (by rw [← hdocs]; exact ih.1)
          (by intro a b; rw [← hdocs]; exact ih.2 a b)
        constructor
        · intro d hd
          rw [heq] at hd
          rw [List.append_nil] at hsh
          exact hsh.1 d hd
        · intro a b
          unfold pendingCount
          rw [heq]
          rw [List.append_nil] at hsh
          exact hsh.2 a b
  | removeFriend s u v _ ih =>
      have hreq := removeFriend_requests s u v
      constructor
      · intro d hd
        rw [hreq] at hd
        exact ih.1 d hd
      · intro a b
        unfold pendingCount
        rw [hreq]
        exact ih.2 a b

end FriendingConcept

/-- C2: in every state reachable by the Friending operations, at most one
pending request exists between each unordered pair of distinct users;
`createRequest(a, b)` fails NotAllowed whenever the pair is already
friends or a pending request exists between them in either direction, and
otherwise creates a new pending request. -/
theorem friending_pending_unique (s : FriendingState)
    (hs : FriendingConcept.Reachable s) (a b : Nat) (hab : a ≠ b) :
    FriendingConcept.pendingCount s a b ≤ 1 ∧
    ((FriendingConcept.isFriends s a b = true ∨
        0 < FriendingConcept.pendingCount s a b) →
      ∃ e, (FriendingConcept.createRequest s a b).1 = .error e ∧
        e.errClass = .notAllowed ∧
        (FriendingConcept.createRequest s a b).2 = s) ∧
    (FriendingConcept.isFriends s a b = false ∧
        FriendingConcept.pendingCount s a b = 0 →
      (FriendingConcept.createRequest s a b).1 = .ok s.requests.nextId ∧
      (FriendingConcept.createRequest s a b).2.requests.docs
        = s.requests.docs ++ [⟨s.requests.nextId, ⟨a, b, .pending⟩⟩]) := by
  obtain ⟨hnsp, hcnt⟩ := FriendingConcept.reachable_inv hs
  refine ⟨hcnt a b, ?_, ?_⟩
  · intro hcond
    obtain ⟨e, he, hcl⟩ := FriendingConcept.canSendRequest_error_of hcond
    rw [FriendingConcept.createRequest_of_error he]
    exact ⟨e, rfl, hcl, rfl⟩
  · rintro ⟨hnf, hzero⟩
    have hok : FriendingConcept.canSendRequest s a b = .ok () := by
      unfold FriendingConcept.canSendRequest FriendingConcept.assertNotFriends
      have h1 : (s.friends.readOne
          (FriendingConcept.friendshipPairFilter a b)).isSome = false := hnf
      have h2 : (a == b) = false := by simp [hab]
      have h3 : s.requests.readOne
          (FriendingConcept.pendingBetweenFilter a b) = none := by
        rw [DocCollection.readOne_eq_none_iff]
        intro d hd
        by_contra hcontra
        rw [Bool.not_eq_false] at hcontra
        have hpend : FriendingConcept.pendingPairPred a b d = true := by
          unfold FriendingConcept.pendingBetweenFilter at hcontra
          unfold FriendingConcept.pendingPairPred
          simp only [Bool.and_eq_true, Bool.or_eq_true, beq_iff_eq,
            decide_eq_true_eq] at hcontra ⊢
          obtain ⟨⟨hfa, hta⟩, hpd⟩ := hcontra
          have hne := hnsp d hd hpd
          refine ⟨?_, hpd⟩
          rcases hfa with e1 | e1 <;> rcases hta with e2 | e2
          · exact absurd (e1.trans e2.symm) hne
          · exact .inl ⟨e1, e2⟩
          · exact .inr ⟨e1, e2⟩
          · exact absurd (e1.trans e2.symm) hne
        have hpos : 0 < FriendingConcept.pendingCount s a b :=
          List.countP_pos_iff.mpr ⟨d, hd, hpend⟩
        omega
      simp [h1, h2, h3]
    rw [FriendingConcept.createRequest_of_ok hok]
    exact ⟨rfl, rfl⟩

/-- C1: for every pair with a pending request from `f` to `t` in a
reachable state, `acceptRequest(f, t)` succeeds, removes the pending
request, inserts an accepted request row, creates exactly one friendship
edge for the unordered pair, and afterwards each user appears in the
other's friend list. -/
theorem acceptRequest_spec (s : FriendingState)
    (hs : FriendingConcept.Reachable s) (f t : Nat)
    (hp : 0 < FriendingConcept.pendingDirCount s f t) :
    (FriendingConcept.acceptRequest s f t).1
        = .ok (s.requests.nextId, s.friends.nextId) ∧
    FriendingConcept.pendingDirCount
        (FriendingConcept.acceptRequest s f t).2 f t = 0 ∧
    FriendingConcept.acceptedDirCount
        (FriendingConcept.acceptRequest s f t).2 f t
      = FriendingConcept.acceptedDirCount s f t + 1 ∧
    FriendingConcept.friendEdgeCount
        (FriendingConcept.acceptRequest s f t).2 f t
      = FriendingConcept.friendEdgeCount s f t + 1 ∧
    t ∈ FriendingConcept.getFriends (FriendingConcept.acceptRequest s f t).2 f ∧
    f ∈ FriendingConcept.getFriends (FriendingConcept.acceptRequest s f t).2 t := by
  obtain ⟨hnsp, hcnt⟩ := FriendingConcept.reachable_inv hs
  rcases FriendingConcept.acceptRequest_state s f t with
    ⟨hnone, _⟩ | ⟨x, l₁, l₂, hx, hdocs, heq⟩
  · obtain ⟨d, hd, hpd⟩ := List.countP_pos_iff.mp hp
    rw [DocCollection.popFirst_eq_none_iff] at hnone
    rw [hnone d hd] at hpd
    cases hpd
  · obtain ⟨hxf, hxt, hxs⟩ := FriendingConcept.pendingDirFilter_eq hx
    have hdir_old : FriendingConcept.pendingDirCount s f t
        = List.countP (FriendingConcept.pendingDirFilter f t) l₁ + 1
          + List.countP (FriendingConcept.pendingDirFilter f t) l₂ := by
      unfold FriendingConcept.pendingDirCount
      rw [hdocs]
      simp [List.countP_append, List.countP_cons, hx]
      omega
    have hmono : FriendingConcept.pendingDirCount s f t
        ≤ FriendingConcept.pendingCount s f t := by
      unfold FriendingConcept.pendingDirCount FriendingConcept.pendingCount
      apply List.countP_mono_left
      intro d _ hpd
      obtain ⟨h1, h2, h3⟩ := FriendingConcept.pendingDirFilter_eq hpd
      unfold FriendingConcept.pendingPairPred
      simp [h1, h2, h3]
    have hzero : List.countP (FriendingConcept.pendingDirFilter f t) l₁ = 0 ∧
        List.countP (FriendingConcept.pendingDirFilter f t) l₂ = 0 := by
      have := hcnt f t
      omega
    refine ⟨by rw [heq], ?_, ?_, ?_, ?_, ?_⟩
    · unfold FriendingConcept.pendingDirCount
      rw [heq]
      simp only [List.countP_append, List.countP_cons, List.countP_nil]
      have hacc : FriendingConcept.pendingDirFilter f t
          ⟨s.requests.nextId, ⟨f, t, .accepted⟩⟩ = false := by
        unfold FriendingConcept.pendingDirFilter
        simp
      rw [hacc]
      simp [hzero.1, hzero.2]
    · unfold FriendingConcept.acceptedDirCount
      rw [heq, hdocs]
      simp only [List.countP_append, List.countP_cons, List.countP_nil]
      simp [hxs]
    · unfold FriendingConcept.friendEdgeCount
        FriendingConcept.friendshipPairFilter
      rw [heq]
      simp only [List.countP_append, List.countP_cons, List.countP_nil]
      simp
    · unfold FriendingConcept.getFriends DocCollection.readMany
      rw [heq]
      refine List.mem_map.mpr ⟨⟨s.friends.nextId, ⟨f, t⟩⟩, ?_, ?_⟩
      · refine List.mem_filter.mpr ⟨by simp, by simp⟩
      · simp
    · unfold FriendingConcept.getFriends DocCollection.readMany
      rw [heq]
      refine List.mem_map.mpr ⟨⟨s.friends.nextId, ⟨f, t⟩⟩, ?_, ?_⟩
      · refine List.mem_filter.mpr ⟨by simp, by simp⟩
      · by_cases hft : f = t
        · simp [hft]
        · simp [hft]

/-! ## Witnesses: the hypothesis-bearing theorems applied at concrete
inputs -/

/-- The state reached from the empty Friending state by
`createRequest(0, 1)`: one pending request from user 0 to user 1. -/
def friendingExample : FriendingState :=
  (FriendingConcept.createRequest FriendingConcept.emptyState 0 1).2

theorem friendingExample_reachable :
    FriendingConcept.Reachable friendingExample :=
  FriendingConcept.Reachable.createRequest FriendingConcept.emptyState 0 1
    FriendingConcept.Reachable.init

/-- Witness for C1 at the reachable state with one pending request
0 → 1. -/
theorem acceptRequest_spec_witness :
    (FriendingConcept.acceptRequest friendingExample 0 1).1
        = .ok (friendingExample.requests.nextId, friendingExample.friends.nextId) ∧
    FriendingConcept.pendingDirCount
        (FriendingConcept.acceptRequest friendingExample 0 1).2 0 1 = 0 ∧
    FriendingConcept.acceptedDirCount
        (FriendingConcept.acceptRequest friendingExample 0 1).2 0 1
      = FriendingConcept.acceptedDirCount friendingExample 0 1 + 1 ∧
    FriendingConcept.friendEdgeCount
        (FriendingConcept.acceptRequest friendingExample 0 1).2 0 1
      = FriendingConcept.friendEdgeCount friendingExample 0 1 + 1 ∧
    1 ∈ FriendingConcept.getFriends
        (FriendingConcept.acceptRequest friendingExample 0 1).2 0 ∧
    0 ∈ FriendingConcept.getFriends
        (FriendingConcept.acceptRequest friendingExample 0 1).2 1 :=
  acceptRequest_spec friendingExample friendingExample_reachable 0 1 (by decide)

/-- Witness for C2 at the same reachable state. -/
theorem friending_pending_unique_witness :
    FriendingConcept.pendingCount friendingExample 0 1 ≤ 1 ∧
    ((FriendingConcept.isFriends friendingExample 0 1 = true ∨
        0 < FriendingConcept.pendingCount friendingExample 0 1) →
      ∃ e, (FriendingConcept.createRequest friendingExample 0 1).1 = .error e ∧
        e.errClass = .notAllowed ∧
        (FriendingConcept.createRequest friendingExample 0 1).2
          = friendingExample) ∧
    (FriendingConcept.isFriends friendingExample 0 1 = false ∧
        FriendingConcept.pendingCount friendingExample 0 1 = 0 →
      (FriendingConcept.createRequest friendingExample 0 1).1
          = .ok friendingExample.requests.nextId ∧
      (FriendingConcept.createRequest friendingExample 0 1).2.requests.docs
        = friendingExample.requests.docs
          ++ [⟨friendingExample.requests.nextId, ⟨0, 1, .pending⟩⟩]) :=
  friending_pending_unique friendingExample friendingExample_reachable 0 1
    (by decide)

/-- Witness for C7 at the one-user state with a valid id and a stale
id. -/
theorem idsToUsernames_spec_witness :
    (AuthenticatingConcept.idsToUsernames exampleAuthState [0, 5]).length
        = [0, 5].length ∧
    AuthenticatingConcept.idsToUsernames exampleAuthState [0, 5]
      = [0, 5].map (AuthenticatingConcept.usernameOrSentinel exampleAuthState) :=
  idsToUsernames_spec exampleAuthState [0, 5] (by decide)

/-- A Sorting state with one profile (id 0, owner 7) whose weight map
holds label "a". -/
def exampleSortingState : SortingState := ⟨⟨[⟨0, ⟨7, [("a", 2)]⟩⟩], 1⟩⟩

/-- A Sourcing state with one registered source (id 0, owner 7). -/
def exampleSourcingState : SourcingState :=
  ⟨⟨[⟨0, ⟨7, "u", .url, []⟩⟩], 1⟩, ⟨[], 0⟩⟩

/-- A Templating state with one template (id 0, owner 7). -/
def exampleTemplatingState : TemplatingState :=
  ⟨⟨[⟨0, ⟨7, .markdown, [], 3⟩⟩], 1⟩, ⟨[], 0⟩⟩

/-- Witness for C8 at states where each entity exists. -/
theorem stub_algorithms_not_implemented_witness :
    (SortingConcept.sort exampleSortingState 0 []).1
        = .error .notImplementedError ∧
    (SortingConcept.sort exampleSortingState 0 []).2 = exampleSortingState ∧
    (SourcingConcept.update exampleSourcingState 0).1
        = .error .notImplementedError ∧
    (SourcingConcept.update exampleSourcingState 0).2 = exampleSourcingState ∧
    (TemplatingConcept.render exampleTemplatingState 0 []).1
        = .error .notImplementedError ∧
    (TemplatingConcept.render exampleTemplatingState 0 []).2
        = exampleTemplatingState :=
  stub_algorithms_not_implemented exampleSortingState 0 []
    exampleSourcingState 0 exampleTemplatingState 0 []
    (by decide) (by decide) (by decide)

/-- Witness for C9 at the profile that holds label "a" but not "b". -/
theorem sorting_weight_ops_spec_witness :
    (SortingConcept.add exampleSortingState 0 "a" 5 7).1
        = .error (.labelNotAllowedError "a") ∧
    (SortingConcept.get exampleSortingState 0 "b").1
        = .error (.labelNotAllowedError "b") ∧
    (SortingConcept.remove exampleSortingState 0 "a").1 = .ok () :=
  ⟨(sorting_weight_ops_spec exampleSortingState 0 "a" 5 7
      ⟨0, ⟨7, [("a", 2)]⟩⟩ (by decide)).1 (by decide),
   (sorting_weight_ops_spec exampleSortingState 0 "b" 5 7
      ⟨0, ⟨7, [("a", 2)]⟩⟩ (by decide)).2.2.2.2.1 (by decide),
   (sorting_weight_ops_spec exampleSortingState 0 "a" 5 7
      ⟨0, ⟨7, [("a", 2)]⟩⟩ (by decide)).2.2.2.2.2.2.2 (by decide)⟩

end Spec2Proof
